import Mathlib

/-!
singleuser-sshd: the authentication, forwarding and session handlers of `main.go`

The program installs four callbacks on an `ssh.Server`: two port-forwarding
callbacks, a public-key handler and a session handler.  Each callback is
embedded as a pure function of its arguments, of the command-line
configuration it closes over, and of the answers of the outside world
(file reads, the key library, `pty.Start`, `cmd.Run`).  Every call the Go
code makes on a collaborator is recorded, in program order, in a trace.
-/

namespace SingleUserSshd

/-! ## Configuration and authentication -/

/-- Go byte slices (`[]byte`), one `Nat` per byte. -/
abbrev Bytes := List Nat

/-- The four command-line flags of `main` (`-addr`, `-hostkey`, `-authkeys`,
`-shell`), after `flag.Parse()`. -/
structure Config where
  listenAddr : String
  hostKeyFile : String
  authKeysFile : String
  shell : String
deriving DecidableEq, Repr

/-- The two functions of the `ssh` package that `PublicKeyHandler` calls.
`parseAuthorizedKey data` is `ssh.ParseAuthorizedKey(data)` restricted to the
results the handler looks at: `none` when `err != nil`, otherwise the parsed
key and `rest`.  `keysEqual` is `ssh.KeysEqual`. -/
structure KeyLib (Key : Type) where
  parseAuthorizedKey : Bytes → Option (Key × Bytes)
  keysEqual : Key → Key → Bool

/-- Calls made by `PublicKeyHandler`, in program order. -/
inductive AuthEvent (Key : Type) where
  | readFile (path : String)
  | logPrintf (msg : String)
  | parseAuthorizedKey (data : Bytes)
  | keysEqual (key allowed : Key)
deriving DecidableEq, Repr

/-- `LocalPortForwardingCallback` (main.go 41-44): logs one line and returns
`false`.  The result is the returned boolean and the lines logged. -/
def localPortForwardingCallback {Ctx : Type} (_cfg : Config) (_ctx : Ctx)
    (_dHost : String) (_dPort : Nat) : Bool × List String :=
  (false, ["Denied local port forwarding request"])

/-- `ReversePortForwardingCallback` (main.go 45-48): logs one line and returns
`false`. -/
def reversePortForwardingCallback {Ctx : Type} (_cfg : Config) (_ctx : Ctx)
    (_bHost : String) (_bPort : Nat) : Bool × List String :=
  (false, ["Denied reverse port forwarding request"])

/-- The loop `for len(data) > 0 { ... }` of `PublicKeyHandler` (main.go 56-66),
together with the `return false` after it.  `fuel` bounds the number of
iterations; `none` means the bound was reached before the loop ended. -/
def scanAuthorizedKeys {Key : Type} (lib : KeyLib Key) (key : Key) :
    Nat → Bytes → Option (Bool × List (AuthEvent Key))
  | fuel, data =>
    if data.length > 0 then
      match fuel with
      | 0 => none
      | fuel + 1 =>
        match lib.parseAuthorizedKey data with
        | none => some (false, [AuthEvent.parseAuthorizedKey data])
        | some (allowed, rest) =>
          if lib.keysEqual key allowed then
            some (true, [AuthEvent.parseAuthorizedKey data, AuthEvent.keysEqual key allowed])
          else
            match scanAuthorizedKeys lib key fuel rest with
            | none => none
            | some (b, t) =>
              some (b, AuthEvent.parseAuthorizedKey data :: AuthEvent.keysEqual key allowed :: t)
    else
      some (false, [])

/-- `PublicKeyHandler` (main.go 50-67).  `readFile path` is the answer of
`ioutil.ReadFile(path)` at the time of the call: `none` when `err != nil`. -/
def publicKeyHandler {Ctx Key : Type} (cfg : Config) (lib : KeyLib Key)
    (readFile : String → Option Bytes) (fuel : Nat) (_ctx : Ctx) (key : Key) :
    Option (Bool × List (AuthEvent Key)) :=
  match readFile cfg.authKeysFile with
  | none =>
    some (false, [AuthEvent.readFile cfg.authKeysFile,
      AuthEvent.logPrintf ("Auth Error: Could not read " ++ cfg.authKeysFile)])
  | some data =>
    match scanAuthorizedKeys lib key fuel data with
    | none => none
    | some (b, t) => some (b, AuthEvent.readFile cfg.authKeysFile :: t)

/-- The entries of an allow-list: `IsEntry lib data k` holds when `k` is one of
the keys that successive `ParseAuthorizedKey` calls deliver from `data`, each
call continuing on the `rest` of the previous one, up to the first call that
fails or the end of the data. -/
inductive IsEntry {Key : Type} (lib : KeyLib Key) : Bytes → Key → Prop where
  | here {data rest : Bytes} {k : Key} :
      data ≠ [] → lib.parseAuthorizedKey data = some (k, rest) → IsEntry lib data k
  | later {data rest : Bytes} {k0 k : Key} :
      data ≠ [] → lib.parseAuthorizedKey data = some (k0, rest) →
      IsEntry lib rest k → IsEntry lib data k

/-- Whether an event of the authentication trace is a key comparison. -/
def AuthEvent.isCompare {Key : Type} : AuthEvent Key → Bool
  | AuthEvent.keysEqual _ _ => true
  | _ => false

/-- A small key library for concrete runs: a key is a non-zero byte, every
record is one byte long, and a zero byte does not parse. -/
def byteKeyLib : KeyLib Nat where
  parseAuthorizedKey := fun data =>
    match data with
    | [] => none
    | 0 :: _ => none
    | (k + 1) :: rest => some (k + 1, rest)
  keysEqual := fun a b => a == b

/-- A configuration with the defaults of `main` for a home directory `/root`
and an empty `SHELL` variable. -/
def defaultConfig : Config where
  listenAddr := ":2222"
  hostKeyFile := "/root/.ssh/single_user_host_key"
  authKeysFile := "/root/.ssh/authorized_keys"
  shell := "/bin/sh"

/-- A file system holding `data` at `path` and nothing else. -/
def singleFile (path : String) (data : Bytes) : String → Option Bytes :=
  fun p => if p = path then some data else none

/-! ## Sessions -/

/-- `ssh.Window`: a terminal size as the transport delivers it (Go `int`s). -/
structure Window where
  Width : Int
  Height : Int
deriving DecidableEq, Repr

/-- `ssh.Pty`: the pseudo-terminal request of a session. -/
structure Pty where
  Term : String
  Window : Window
deriving DecidableEq, Repr

/-- What `s.Pty()` and `s.Command()` return for a session.  `winCh` lists the
windows the channel delivers, in order, until it is closed. -/
structure Session where
  ptyReq : Pty
  winCh : List Window
  isPty : Bool
  command : List String
deriving DecidableEq, Repr

/-- The two byte streams of the handler: the session `s` and the
pseudo-terminal file `f` returned by `pty.Start`. -/
inductive Stream where
  | session
  | ptyFile
deriving DecidableEq, Repr

/-- The fields of `exec.Cmd` the handler sets.  `name` and `args` are the
arguments of `exec.Command(name, args...)`; `Env = none` is Go's nil slice
(the child inherits the environment); a stream that is `none` is left nil. -/
structure Cmd where
  name : String
  args : List String
  Env : Option (List String)
  Stdin : Option Stream
  Stdout : Option Stream
  Stderr : Option Stream
deriving DecidableEq, Repr

/-- `exec.Command(name, arg...)`. -/
def execCommand (name : String) (arg : List String) : Cmd where
  name := name
  args := arg
  Env := none
  Stdin := none
  Stdout := none
  Stderr := none

/-- A non-nil error returned by `cmd.Run()`: either an `*exec.ExitError`, of
which the handler reads `ExitCode()`, or any other error. -/
inductive RunError where
  | exitError (exitCode : Int)
  | other (msg : String)
deriving DecidableEq, Repr

/-- Answers of the operating system to the session handler: `os.Environ()`,
the error text of `pty.Start(cmd)` (`none` when it succeeds) and the error of
`cmd.Run()` (`none` when it is nil). -/
structure World where
  environ : List String
  ptyStart : Cmd → Option String
  cmdRun : Cmd → Option RunError

/-- The three goroutines the interactive path starts. -/
inductive Goroutine where
  | resize
  | copyIn
  | copyOut
deriving DecidableEq, Repr

/-- `pty.Winsize`. -/
structure Winsize where
  Rows : Nat
  Cols : Nat
  X : Nat
  Y : Nat
deriving DecidableEq, Repr

/-- Calls made by the session handler and its goroutines. -/
inductive Event where
  | ptyStart (cmd : Cmd)
  | writeString (msg : String)
  | exit (code : Int)
  | go (g : Goroutine)
  | wgAdd (n : Nat)
  | cmdWait
  | wgWait
  | cmdRun (cmd : Cmd)
  | setsize (ws : Winsize)
  | copy (dst src : Stream)
  | closePty
  | wgDone
deriving DecidableEq, Repr

/-- Go's conversion `uint16(x)` of an `int`. -/
def uint16 (x : Int) : Nat := (x % 65536).toNat

/-- `strings.Join(elems, sep)`: the first element, then `sep` and the next
element for each further one. -/
def stringsJoin (elems : List String) (sep : String) : String :=
  match elems with
  | [] => ""
  | [e] => e
  | e :: rest => rest.foldl (fun b s => b ++ sep ++ s) e

/-- The command the interactive path hands to `pty.Start` (main.go 79-80). -/
def interactiveCmd (cfg : Config) (w : World) (s : Session) : Cmd :=
  { execCommand cfg.shell [] with Env := some (w.environ ++ ["TERM=" ++ s.ptyReq.Term]) }

/-- The command the one-shot path runs (main.go 113-121). -/
def oneShotCmd (cfg : Config) (s : Session) : Cmd :=
  let cmd :=
    if s.command.length > 0 then
      execCommand cfg.shell ["-c", stringsJoin s.command " "]
    else
      execCommand cfg.shell []
  { cmd with Stdout := some Stream.session, Stderr := some Stream.session,
             Stdin := some Stream.session }

/-- `s.Handler` (main.go 77-130): the calls of the handler's own goroutine. -/
def handler (cfg : Config) (w : World) (s : Session) : List Event :=
  if s.isPty && s.command.length == 0 then
    let cmd := interactiveCmd cfg w s
    match w.ptyStart cmd with
    | some err =>
      [Event.ptyStart cmd, Event.writeString ("Error allocating PTY: " ++ err), Event.exit 1]
    | none =>
      [Event.ptyStart cmd, Event.go Goroutine.resize, Event.wgAdd 1, Event.go Goroutine.copyIn,
       Event.go Goroutine.copyOut, Event.cmdWait, Event.wgWait]
  else
    let cmd := oneShotCmd cfg s
    match w.cmdRun cmd with
    | none => [Event.cmdRun cmd]
    | some (RunError.exitError code) => [Event.cmdRun cmd, Event.exit code]
    | some (RunError.other _) => [Event.cmdRun cmd, Event.exit 1]

/-- The loop `for win := range winCh { pty.Setsize(f, ...) }` (main.go 90-92):
the calls it makes on the windows delivered. -/
def resizeLoop : List Window → List Event
  | [] => []
  | win :: rest =>
    Event.setsize { Rows := uint16 win.Height, Cols := uint16 win.Width, X := 0, Y := 0 }
      :: resizeLoop rest

/-- The body of each goroutine of the interactive path (main.go 89-106). -/
def goroutineBody (s : Session) : Goroutine → List Event
  | Goroutine.resize => resizeLoop s.winCh
  | Goroutine.copyIn => [Event.copy Stream.ptyFile Stream.session, Event.closePty]
  | Goroutine.copyOut => [Event.copy Stream.session Stream.ptyFile, Event.wgDone]

/-- The calls of the goroutines started in a trace, in the order started. -/
def spawnedEvents (s : Session) : List Event → List Event
  | [] => []
  | Event.go g :: rest => goroutineBody s g ++ spawnedEvents s rest
  | _ :: rest => spawnedEvents s rest

/-- Every call of a session: those of the handler's goroutine followed by those
of the goroutines it started. -/
def sessionEvents (cfg : Config) (w : World) (s : Session) : List Event :=
  handler cfg w s ++ spawnedEvents s (handler cfg w s)

/-- The effect of one call on the window size of the pseudo-terminal:
`pty.Setsize` replaces it, every other call leaves it. -/
def stepWinsize (cur : Option Winsize) : Event → Option Winsize
  | Event.setsize ws => some ws
  | _ => cur

/-- The window size set on the pseudo-terminal by the calls of a trace,
`none` while no `pty.Setsize` call was made. -/
def finalWinsize (t : List Event) : Option Winsize :=
  t.foldl stepWinsize none

/-- The statuses passed to `s.Exit`, in order. -/
def exitCalls : List Event → List Int
  | [] => []
  | Event.exit code :: rest => code :: exitCalls rest
  | _ :: rest => exitCalls rest

/-- The sizes passed to `pty.Setsize`, in order. -/
def setsizeCalls : List Event → List Winsize
  | [] => []
  | Event.setsize ws :: rest => ws :: setsizeCalls rest
  | _ :: rest => setsizeCalls rest

/-- Whether a call starts a process. -/
def Event.isSpawn : Event → Bool
  | Event.ptyStart _ => true
  | Event.cmdRun _ => true
  | _ => false

/-- Whether a call belongs to the interactive path only. -/
def Event.isPtyStart : Event → Bool
  | Event.ptyStart _ => true
  | _ => false

/-- Whether a call belongs to the one-shot path only. -/
def Event.isCmdRun : Event → Bool
  | Event.cmdRun _ => true
  | _ => false

/-- Whether a call starts a relay, the resize consumer or a wait. -/
def Event.isRelayOrWait : Event → Bool
  | Event.go _ => true
  | Event.wgAdd _ => true
  | Event.cmdWait => true
  | Event.wgWait => true
  | Event.copy _ _ => true
  | Event.setsize _ => true
  | _ => false

/-- The tokens `t1, ..., tn` written one after the other with a single space
between neighbours. -/
def joinedBySpaces : List String → String
  | [] => ""
  | [t] => t
  | t :: ts => t ++ " " ++ joinedBySpaces ts

/-- The value a child process sees for variable `key` when started with the
environment list `env`: of several entries `key=value`, `os/exec` keeps the
last. -/
def lookupEnv (env : List String) (key : String) : Option String :=
  match env.reverse.find? (fun kv => (key.data ++ ['=']).isPrefixOf kv.data) with
  | none => none
  | some kv => some (String.mk (kv.data.drop (key.length + 1)))

/-- What `cmd.Run()` returns for a command that was started, whose streams were
copied without error and whose process exited with status `c`: nil for status
zero, otherwise an `*exec.ExitError` with `ExitCode() = c`. -/
def runResultOfExit (c : Nat) : Option RunError :=
  if c = 0 then none else some (RunError.exitError c)

/-- A world with an empty environment in which `pty.Start` succeeds and
`cmd.Run` returns what a clean exit with status `c` gives: nil for 0, an exit
error of code `c` otherwise. -/
def worldExiting (c : Nat) : World where
  environ := []
  ptyStart := fun _ => none
  cmdRun := fun _ => runResultOfExit c

/-- A world in which `pty.Start` fails with `msg` and `cmd.Run` returns `r`. -/
def worldFailing (msg : String) (r : Option RunError) : World where
  environ := ["HOME=/root", "TERM=dumb"]
  ptyStart := fun _ => some msg
  cmdRun := fun _ => r

/-- A session without pseudo-terminal asking for `command`. -/
def commandSession (command : List String) : Session where
  ptyReq := { Term := "", Window := { Width := 0, Height := 0 } }
  winCh := []
  isPty := false
  command := command

/-- A session with a pseudo-terminal of type `term` and size `win`, asking for
`command`, whose resize channel delivers `win` and then `later`. -/
def ptySession (term : String) (win : Window) (later : List Window)
    (command : List String) : Session where
  ptyReq := { Term := term, Window := win }
  winCh := win :: later
  isPty := true
  command := command

/-! ## Authentication: theorems -/

/-- The loop of `PublicKeyHandler` ends within `data.length` iterations when
every successful parse consumes input, and it answers `true` exactly when the
candidate equals an entry of the data. -/
theorem scanAuthorizedKeys_spec {Key : Type} (lib : KeyLib Key) (key : Key)
    (hshrink : ∀ d k r, lib.parseAuthorizedKey d = some (k, r) → r.length < d.length) :
    ∀ (fuel : Nat) (data : Bytes), data.length ≤ fuel →
      ∃ b t, scanAuthorizedKeys lib key fuel data = some (b, t) ∧
        (b = true ↔ ∃ a, IsEntry lib data a ∧ lib.keysEqual key a = true) := by
  intro fuel
  induction fuel with
  | zero =>
    intro data hlen
    have hnil : data = [] := List.length_eq_zero.mp (Nat.le_zero.mp hlen)
    subst hnil
    refine ⟨false, [], by simp [scanAuthorizedKeys], ?_⟩
    constructor
    · intro h; cases h
    · rintro ⟨a, ha, _⟩
      cases ha with
      | here hne _ => exact absurd rfl hne
      | later hne _ _ => exact absurd rfl hne
  | succ n ih =>
    intro data hlen
    by_cases hpos : data.length > 0
    · have hne : data ≠ [] := by
        intro h; subst h; simp at hpos
      cases hparse : lib.parseAuthorizedKey data with
      | none =>
        refine ⟨false, [AuthEvent.parseAuthorizedKey data], by
          simp [scanAuthorizedKeys, hpos, hparse], ?_⟩
        constructor
        · intro h; cases h
        · rintro ⟨a, ha, _⟩
          cases ha with
          | here _ hp => rw [hparse] at hp; cases hp
          | later _ hp _ => rw [hparse] at hp; cases hp
      | some p =>
        obtain ⟨allowed, rest⟩ := p
        by_cases heq : lib.keysEqual key allowed = true
        · refine ⟨true, [AuthEvent.parseAuthorizedKey data, AuthEvent.keysEqual key allowed], by
            simp [scanAuthorizedKeys, hpos, hparse, heq], ?_⟩
          constructor
          · intro _
            exact ⟨allowed, IsEntry.here hne hparse, heq⟩
          · intro _; rfl
        · have hlt : rest.length < data.length := hshrink data allowed rest hparse
          obtain ⟨b, t, hscan, hiff⟩ := ih rest (by omega)
          refine ⟨b, AuthEvent.parseAuthorizedKey data :: AuthEvent.keysEqual key allowed :: t, by
            simp [scanAuthorizedKeys, hpos, hparse, heq, hscan], ?_⟩
          rw [hiff]
          constructor
          · rintro ⟨a, ha, hka⟩
            exact ⟨a, IsEntry.later hne hparse ha, hka⟩
          · rintro ⟨a, ha, hka⟩
            cases ha with
            | here _ hp =>
              rw [hparse] at hp
              cases hp
              exact absurd hka heq
            | later _ hp hrest =>
              rw [hparse] at hp
              cases hp
              exact ⟨a, hrest, hka⟩
    · have hnil : data = [] := by
        cases data with
        | nil => rfl
        | cons x xs => simp at hpos
      subst hnil
      refine ⟨false, [], by simp [scanAuthorizedKeys], ?_⟩
      constructor
      · intro h; cases h
      · rintro ⟨a, ha, _⟩
        cases ha with
        | here hne _ => exact absurd rfl hne
        | later hne _ _ => exact absurd rfl hne

/-- Every successful parse of `byteKeyLib` consumes one byte. -/
theorem byteKeyLib_shrinks :
    ∀ d k r, byteKeyLib.parseAuthorizedKey d = some (k, r) → r.length < d.length := by
  intro d k r h
  cases d with
  | nil => simp [byteKeyLib] at h
  | cons x xs =>
    cases x with
    | zero => simp [byteKeyLib] at h
    | succ n =>
      simp [byteKeyLib] at h
      obtain ⟨_, hr⟩ := h
      subst hr
      simp

/-- C1: whenever the allow-list file is readable, `PublicKeyHandler` returns,
and it returns true exactly when the candidate key is `KeysEqual` to an entry
of the file as it is at the time of the call; the content is read at each
call, so a call on a content holding the key answers true and a call on a
content not holding it answers false, for the same key. -/
theorem publicKeyHandler_true_iff_entry {Ctx Key : Type} (cfg : Config) (lib : KeyLib Key)
    (hshrink : ∀ d k r, lib.parseAuthorizedKey d = some (k, r) → r.length < d.length)
    (ctx : Ctx) (key : Key) :
    (∀ (readFile : String → Option Bytes) (data : Bytes) (fuel : Nat),
      readFile cfg.authKeysFile = some data → data.length ≤ fuel →
      ∃ b t, publicKeyHandler cfg lib readFile fuel ctx key = some (b, t) ∧
        (b = true ↔ ∃ a, IsEntry lib data a ∧ lib.keysEqual key a = true)) ∧
    (∀ (first second : String → Option Bytes) (d1 d2 : Bytes) (fuel : Nat),
      first cfg.authKeysFile = some d1 → second cfg.authKeysFile = some d2 →
      d1.length ≤ fuel → d2.length ≤ fuel →
      (∃ a, IsEntry lib d1 a ∧ lib.keysEqual key a = true) →
      (¬ ∃ a, IsEntry lib d2 a ∧ lib.keysEqual key a = true) →
      ∃ t1 t2, publicKeyHandler cfg lib first fuel ctx key = some (true, t1) ∧
        publicKeyHandler cfg lib second fuel ctx key = some (false, t2)) := by
  have main : ∀ (readFile : String → Option Bytes) (data : Bytes) (fuel : Nat),
      readFile cfg.authKeysFile = some data → data.length ≤ fuel →
      ∃ b t, publicKeyHandler cfg lib readFile fuel ctx key = some (b, t) ∧
        (b = true ↔ ∃ a, IsEntry lib data a ∧ lib.keysEqual key a = true) := by
    intro readFile data fuel hread hfuel
    obtain ⟨b, t, hscan, hiff⟩ := scanAuthorizedKeys_spec lib key hshrink fuel data hfuel
    exact ⟨b, AuthEvent.readFile cfg.authKeysFile :: t, by
      simp [publicKeyHandler, hread, hscan], hiff⟩
  refine ⟨main, ?_⟩
  intro first second d1 d2 fuel h1 h2 hf1 hf2 hin hout
  obtain ⟨b1, t1, hr1, hiff1⟩ := main first d1 fuel h1 hf1
  obtain ⟨b2, t2, hr2, hiff2⟩ := main second d2 fuel h2 hf2
  have hb1 : b1 = true := hiff1.mpr hin
  have hb2 : b2 = false := by
    cases b2 with
    | false => rfl
    | true => exact absurd (hiff2.mp rfl) hout
  subst hb1
  subst hb2
  exact ⟨t1, t2, hr1, hr2⟩

/-- The allow-list is rewritten from bytes 3, 4 to bytes 3, 0, 4 between two
calls: key 4 is accepted by the first call and refused by the second. -/
theorem publicKeyHandler_true_iff_entry_witness :
    ∃ t1 t2,
      publicKeyHandler defaultConfig byteKeyLib
        (singleFile "/root/.ssh/authorized_keys" [3, 4]) 3 () 4 = some (true, t1) ∧
      publicKeyHandler defaultConfig byteKeyLib
        (singleFile "/root/.ssh/authorized_keys" [3, 0, 4]) 3 () 4 = some (false, t2) := by
  refine (publicKeyHandler_true_iff_entry defaultConfig byteKeyLib byteKeyLib_shrinks () 4).2
    (singleFile "/root/.ssh/authorized_keys" [3, 4])
    (singleFile "/root/.ssh/authorized_keys" [3, 0, 4]) [3, 4] [3, 0, 4] 3
    (by simp [singleFile, defaultConfig]) (by simp [singleFile, defaultConfig])
    (by decide) (by decide) ?_ ?_
  · refine ⟨4, ?_, by decide⟩
    refine @IsEntry.later Nat byteKeyLib [3, 4] [4] 3 4 (by simp) (by simp [byteKeyLib]) ?_
    exact @IsEntry.here Nat byteKeyLib [4] [] 4 (by simp) (by simp [byteKeyLib])
  · rintro ⟨a, ha, hka⟩
    cases ha with
    | here _ hp =>
      simp [byteKeyLib] at hp
      obtain ⟨hp, _⟩ := hp
      subst hp
      simp [byteKeyLib] at hka
    | later _ hp hrest =>
      simp [byteKeyLib] at hp
      obtain ⟨_, hp⟩ := hp
      subst hp
      cases hrest with
      | here _ hp2 => simp [byteKeyLib] at hp2
      | later _ hp2 _ => simp [byteKeyLib] at hp2

/-- C2: when the allow-list file cannot be read, `PublicKeyHandler` returns
false for every candidate key, after reading and logging only: its trace holds
no key comparison and no parse. -/
theorem publicKeyHandler_fail_closed {Ctx Key : Type} (cfg : Config) (lib : KeyLib Key)
    (readFile : String → Option Bytes) (fuel : Nat) (ctx : Ctx) (key : Key)
    (hread : readFile cfg.authKeysFile = none) :
    ∃ t, publicKeyHandler cfg lib readFile fuel ctx key = some (false, t) ∧
      t = [AuthEvent.readFile cfg.authKeysFile,
           AuthEvent.logPrintf ("Auth Error: Could not read " ++ cfg.authKeysFile)] ∧
      ∀ e ∈ t, e.isCompare = false := by
  refine ⟨_, by simp [publicKeyHandler, hread], rfl, ?_⟩
  intro e he
  simp at he
  rcases he with he | he <;> subst he <;> rfl

/-- The allow-list is missing: key 4 is refused without any comparison, even
with no iteration allowed. -/
theorem publicKeyHandler_fail_closed_witness :
    ∃ t, publicKeyHandler defaultConfig byteKeyLib
        (singleFile "/etc/passwd" [4]) 0 () 4 = some (false, t) ∧
      t = [AuthEvent.readFile "/root/.ssh/authorized_keys",
           AuthEvent.logPrintf ("Auth Error: Could not read " ++ "/root/.ssh/authorized_keys")] ∧
      ∀ e ∈ t, e.isCompare = false :=
  publicKeyHandler_fail_closed defaultConfig byteKeyLib (singleFile "/etc/passwd" [4]) 0 () 4
    (by simp [singleFile, defaultConfig])

/-! ## Forwarding: theorems -/

/-- C3: both port-forwarding callbacks return false for every context, host
and port, under every command-line configuration. -/
theorem forwarding_always_denied {Ctx : Type} (cfg : Config) (ctx : Ctx) (host : String)
    (port : Nat) :
    (localPortForwardingCallback cfg ctx host port).1 = false ∧
    (reversePortForwardingCallback cfg ctx host port).1 = false :=
  ⟨rfl, rfl⟩

/-! ## Sessions: lemmas on the goroutines -/

/-- The resize loop makes no `s.Exit` call. -/
theorem exitCalls_resizeLoop (l : List Window) : exitCalls (resizeLoop l) = [] := by
  induction l with
  | nil => rfl
  | cons win rest ih => simpa [resizeLoop, exitCalls] using ih

/-- The resize loop starts no process. -/
theorem filter_isSpawn_resizeLoop (l : List Window) :
    (resizeLoop l).filter Event.isSpawn = [] := by
  induction l with
  | nil => rfl
  | cons win rest ih => simpa [resizeLoop, Event.isSpawn] using ih

/-- The resize loop makes one `pty.Setsize` call per window, in order. -/
theorem setsizeCalls_resizeLoop (l : List Window) :
    setsizeCalls (resizeLoop l) =
      l.map (fun win => { Rows := (win.Height % 65536).toNat,
                          Cols := (win.Width % 65536).toNat, X := 0, Y := 0 }) := by
  induction l with
  | nil => rfl
  | cons win rest ih => simpa [resizeLoop, setsizeCalls, uint16] using ih

/-- `setsizeCalls` of a concatenation. -/
theorem setsizeCalls_append (a b : List Event) :
    setsizeCalls (a ++ b) = setsizeCalls a ++ setsizeCalls b := by
  induction a with
  | nil => rfl
  | cons e rest ih => cases e <;> simp [setsizeCalls, ih]

/-- `exitCalls` of a concatenation. -/
theorem exitCalls_append (a b : List Event) :
    exitCalls (a ++ b) = exitCalls a ++ exitCalls b := by
  induction a with
  | nil => rfl
  | cons e rest ih => cases e <;> simp [exitCalls, ih]

/-- The window size after a trace is the argument of its last `pty.Setsize`
call, or the size before the trace when it has none. -/
theorem foldl_stepWinsize (t : List Event) :
    ∀ cur, t.foldl stepWinsize cur =
      match (setsizeCalls t).getLast? with
      | some ws => some ws
      | none => cur := by
  induction t with
  | nil => intro cur; rfl
  | cons e rest ih =>
    intro cur
    rw [List.foldl_cons, ih]
    cases e <;> simp only [stepWinsize, setsizeCalls]
    case setsize ws =>
      cases hrest : setsizeCalls rest with
      | nil => simp
      | cons x xs =>
        cases hlast : (ws :: x :: xs).getLast? with
        | none => simp at hlast
        | some u =>
          rw [List.getLast?_cons_cons] at hlast
          simp [hlast]

/-- The window size set by a trace is the argument of its last `pty.Setsize`. -/
theorem finalWinsize_eq_getLast (t : List Event) :
    finalWinsize t = (setsizeCalls t).getLast? := by
  unfold finalWinsize
  rw [foldl_stepWinsize]
  cases (setsizeCalls t).getLast? <;> rfl

/-- Go's `strings.Join` with a space writes the tokens with single spaces
between neighbours. -/
theorem stringsJoin_space (l : List String) : stringsJoin l " " = joinedBySpaces l := by
  have key : ∀ (rest : List String) (e : String),
      rest.foldl (fun b s => b ++ " " ++ s) e = joinedBySpaces (e :: rest) := by
    intro rest
    induction rest with
    | nil => intro e; rfl
    | cons x xs ih =>
      intro e
      rw [List.foldl_cons, ih]
      cases xs with
      | nil => rfl
      | cons y ys => simp [joinedBySpaces, String.append_assoc]
  cases l with
  | nil => rfl
  | cons e rest =>
    cases rest with
    | nil => rfl
    | cons x xs => exact key (x :: xs) e

/-- The events of an interactive session whose `pty.Start` succeeds. -/
theorem sessionEvents_interactive_ok (cfg : Config) (w : World) (s : Session)
    (hpty : s.isPty = true) (hcmd : s.command = [])
    (hstart : w.ptyStart (interactiveCmd cfg w s) = none) :
    sessionEvents cfg w s =
      [Event.ptyStart (interactiveCmd cfg w s), Event.go Goroutine.resize, Event.wgAdd 1,
       Event.go Goroutine.copyIn, Event.go Goroutine.copyOut, Event.cmdWait, Event.wgWait]
      ++ (resizeLoop s.winCh
      ++ [Event.copy Stream.ptyFile Stream.session, Event.closePty,
          Event.copy Stream.session Stream.ptyFile, Event.wgDone]) := by
  simp [sessionEvents, handler, hpty, hcmd, hstart, spawnedEvents, goroutineBody]

/-- The events of an interactive session whose `pty.Start` fails. -/
theorem sessionEvents_interactive_err (cfg : Config) (w : World) (s : Session)
    (hpty : s.isPty = true) (hcmd : s.command = []) (err : String)
    (hstart : w.ptyStart (interactiveCmd cfg w s) = some err) :
    sessionEvents cfg w s =
      [Event.ptyStart (interactiveCmd cfg w s),
       Event.writeString ("Error allocating PTY: " ++ err), Event.exit 1] := by
  simp [sessionEvents, handler, hpty, hcmd, hstart, spawnedEvents]

/-- The events of a one-shot session. -/
theorem sessionEvents_oneShot (cfg : Config) (w : World) (s : Session)
    (hpath : ¬ (s.isPty = true ∧ s.command = [])) :
    sessionEvents cfg w s =
      Event.cmdRun (oneShotCmd cfg s) ::
        (match w.cmdRun (oneShotCmd cfg s) with
         | none => []
         | some (RunError.exitError code) => [Event.exit code]
         | some (RunError.other _) => [Event.exit 1]) := by
  have hcond : (s.isPty && s.command.length == 0) = false := by
    cases hp : s.isPty with
    | false => simp
    | true =>
      cases hc : s.command with
      | nil => exact absurd ⟨hp, hc⟩ hpath
      | cons x xs => simp
  unfold sessionEvents handler
  rw [hcond]
  cases hrun : w.cmdRun (oneShotCmd cfg s) with
  | none => simp [hrun, spawnedEvents]
  | some r => cases r <;> simp [hrun, spawnedEvents]

/-! ## Sessions: theorems -/

/-- C4: a session calls `pty.Start` (the interactive path) exactly when a
pseudo-terminal was requested and the command list is empty, and calls
`cmd.Run` (the one-shot path) in every other case; exactly one of the two
happens, and the session makes exactly one process-starting call. -/
theorem handler_dispatch (cfg : Config) (w : World) (s : Session) :
    ((sessionEvents cfg w s).any Event.isPtyStart = true ↔
      (s.isPty = true ∧ s.command = [])) ∧
    ((sessionEvents cfg w s).any Event.isCmdRun = true ↔
      ¬ (s.isPty = true ∧ s.command = [])) ∧
    ((sessionEvents cfg w s).any Event.isPtyStart ≠
      (sessionEvents cfg w s).any Event.isCmdRun) ∧
    ((sessionEvents cfg w s).filter Event.isSpawn).length = 1 := by
  by_cases hpath : s.isPty = true ∧ s.command = []
  · obtain ⟨hpty, hcmd⟩ := hpath
    have hno : ∀ l : List Window, (resizeLoop l).any Event.isCmdRun = false := by
      intro l
      induction l with
      | nil => rfl
      | cons win rest ih => simpa [resizeLoop, Event.isCmdRun] using ih
    cases hstart : w.ptyStart (interactiveCmd cfg w s) with
    | none =>
      rw [sessionEvents_interactive_ok cfg w s hpty hcmd hstart]
      have hf := filter_isSpawn_resizeLoop s.winCh
      have hn := hno s.winCh
      refine ⟨?_, ?_, ?_, ?_⟩
      · simp [hpty, hcmd, Event.isPtyStart]
      · simp [hpty, hcmd, Event.isCmdRun, hn]
      · simp [Event.isPtyStart, Event.isCmdRun]
        simpa using hn
      · simp [List.filter_append, hf, Event.isSpawn]
    | some err =>
      rw [sessionEvents_interactive_err cfg w s hpty hcmd err hstart]
      simp [hpty, hcmd, Event.isPtyStart, Event.isCmdRun, Event.isSpawn]
  · rw [sessionEvents_oneShot cfg w s hpath]
    cases hrun : w.cmdRun (oneShotCmd cfg s) with
    | none => simp [hpath, Event.isPtyStart, Event.isCmdRun, Event.isSpawn]
    | some r =>
      cases r <;> simp [hpath, Event.isPtyStart, Event.isCmdRun, Event.isSpawn]

/-- A pseudo-terminal request that carries the command `echo hi` takes the
one-shot path and starts one process. -/
theorem handler_dispatch_witness :
    (sessionEvents defaultConfig (worldExiting 0)
        (ptySession "xterm" ⟨80, 24⟩ [] ["echo", "hi"])).any Event.isCmdRun = true ∧
    ((sessionEvents defaultConfig (worldExiting 0)
        (ptySession "xterm" ⟨80, 24⟩ [] ["echo", "hi"])).filter Event.isSpawn).length = 1 :=
  ⟨(handler_dispatch defaultConfig (worldExiting 0)
      (ptySession "xterm" ⟨80, 24⟩ [] ["echo", "hi"])).2.1.mpr (by simp [ptySession]),
   (handler_dispatch defaultConfig (worldExiting 0)
      (ptySession "xterm" ⟨80, 24⟩ [] ["echo", "hi"])).2.2.2⟩

/-- C5, as stated, fails for exit status 0: for the one-shot command `true`,
whose process exits with status 0, `cmd.Run` returns either nil or, when a copy
on the session stream failed, an error that is no `*exec.ExitError`; in the
first case the session makes no `s.Exit` call at all and in the second it calls
`s.Exit(1)`, so in neither does it call `s.Exit(0)`. -/
theorem oneShot_exit_zero_not_reported :
    (worldExiting 0).cmdRun (oneShotCmd defaultConfig (commandSession ["true"])) = none ∧
    exitCalls (sessionEvents defaultConfig (worldExiting 0) (commandSession ["true"])) = [] ∧
    exitCalls (sessionEvents defaultConfig (worldExiting 0) (commandSession ["true"])) ≠ [0] ∧
    exitCalls (sessionEvents defaultConfig
      (worldFailing "" (some (RunError.other "copy on the session stream failed")))
      (commandSession ["true"])) = [1] ∧
    exitCalls (sessionEvents defaultConfig
      (worldFailing "" (some (RunError.other "copy on the session stream failed")))
      (commandSession ["true"])) ≠ [0] := by
  decide

/-- C5, amended: on the one-shot path the exit calls of the session are fixed
by what `cmd.Run` returns.  When it returns an `*exec.ExitError` whose
`ExitCode()` is `c`, for any `c` in 1..255, the handler calls `s.Exit(c)` once
and makes no other exit call; when it returns nil the handler makes no
`s.Exit` call; when it returns an error that is no `*exec.ExitError` the
handler calls `s.Exit(1)` once. -/
theorem oneShot_exit_status (cfg : Config) (w : World) (s : Session)
    (hpath : ¬ (s.isPty = true ∧ s.command = [])) :
    (∀ c : Nat, 1 ≤ c → c ≤ 255 →
      w.cmdRun (oneShotCmd cfg s) = some (RunError.exitError (c : Int)) →
      exitCalls (sessionEvents cfg w s) = [(c : Int)]) ∧
    (w.cmdRun (oneShotCmd cfg s) = none → exitCalls (sessionEvents cfg w s) = []) ∧
    (∀ msg, w.cmdRun (oneShotCmd cfg s) = some (RunError.other msg) →
      exitCalls (sessionEvents cfg w s) = [1]) := by
  refine ⟨?_, ?_, ?_⟩
  · intro c _ _ hrun
    rw [sessionEvents_oneShot cfg w s hpath, hrun]
    simp [exitCalls]
  · intro hrun
    rw [sessionEvents_oneShot cfg w s hpath, hrun]
    simp [exitCalls]
  · intro msg hrun
    rw [sessionEvents_oneShot cfg w s hpath, hrun]
    simp [exitCalls]

/-- Runs of `exit 42` and of `false` in which `cmd.Run` returns exit errors of
codes 42 and 1 report 42 and 1; a run of `true` in which it returns nil reports
nothing. -/
theorem oneShot_exit_status_witness :
    exitCalls (sessionEvents defaultConfig (worldExiting 42) (commandSession ["exit", "42"]))
      = [42] ∧
    exitCalls (sessionEvents defaultConfig (worldExiting 1) (commandSession ["false"]))
      = [1] ∧
    exitCalls (sessionEvents defaultConfig (worldExiting 0) (commandSession ["true"]))
      = [] :=
  ⟨(oneShot_exit_status defaultConfig (worldExiting 42) (commandSession ["exit", "42"])
      (by simp [commandSession])).1 42 (by decide) (by decide) rfl,
   (oneShot_exit_status defaultConfig (worldExiting 1) (commandSession ["false"])
      (by simp [commandSession])).1 1 (by decide) (by decide) rfl,
   (oneShot_exit_status defaultConfig (worldExiting 0) (commandSession ["true"])
      (by simp [commandSession])).2.1 rfl⟩

/-- C6: what the one-shot path reports when `cmd.Run` fails.  A process killed
by a signal gives an `*exec.ExitError` whose `ExitCode()` is -1, and the
handler passes that -1 to `s.Exit`; an error that is no `*exec.ExitError`
(the process could not be started) is reported as 1. -/
theorem oneShot_signal_reports_minus_one :
    exitCalls (sessionEvents defaultConfig
        (worldFailing "" (some (RunError.exitError (-1))))
        (commandSession ["kill", "-9", "$$"])) = [-1] ∧
    exitCalls (sessionEvents defaultConfig
        (worldFailing "" (some (RunError.other "exec: not started")))
        (commandSession ["true"])) = [1] := by
  decide

/-- C7: on the one-shot path the only process started is the configured shell,
with arguments `-c` and the tokens joined by single spaces when the command
list is non-empty, and with no arguments when it is empty; its stdin, stdout
and stderr are the session stream in both cases. -/
theorem oneShot_command_construction (cfg : Config) (w : World) (s : Session) :
    (s.command ≠ [] →
      (sessionEvents cfg w s).filter Event.isSpawn =
        [Event.cmdRun { name := cfg.shell, args := ["-c", joinedBySpaces s.command],
                        Env := none, Stdin := some Stream.session,
                        Stdout := some Stream.session, Stderr := some Stream.session }]) ∧
    (s.command = [] → s.isPty = false →
      (sessionEvents cfg w s).filter Event.isSpawn =
        [Event.cmdRun { name := cfg.shell, args := [],
                        Env := none, Stdin := some Stream.session,
                        Stdout := some Stream.session, Stderr := some Stream.session }]) := by
  have hspawn : ∀ hpath : ¬ (s.isPty = true ∧ s.command = []),
      (sessionEvents cfg w s).filter Event.isSpawn = [Event.cmdRun (oneShotCmd cfg s)] := by
    intro hpath
    rw [sessionEvents_oneShot cfg w s hpath]
    cases hrun : w.cmdRun (oneShotCmd cfg s) with
    | none => simp [Event.isSpawn]
    | some r => cases r <;> simp [Event.isSpawn]
  constructor
  · intro hne
    rw [hspawn (fun h => hne h.2)]
    have hlen : s.command.length > 0 := List.length_pos.mpr hne
    simp [oneShotCmd, hlen, execCommand, stringsJoin_space]
  · intro hnil hpty
    rw [hspawn (fun h => by rw [hpty] at h; exact Bool.false_ne_true h.1)]
    simp [oneShotCmd, hnil, execCommand]

/-- The command `echo hi` runs the shell with `-c` and `echo hi`. -/
theorem oneShot_command_construction_witness :
    (sessionEvents defaultConfig (worldExiting 0) (commandSession ["echo", "hi"])).filter
        Event.isSpawn =
      [Event.cmdRun { name := "/bin/sh", args := ["-c", "echo hi"],
                      Env := none, Stdin := some Stream.session,
                      Stdout := some Stream.session, Stderr := some Stream.session }] :=
  (oneShot_command_construction defaultConfig (worldExiting 0)
    (commandSession ["echo", "hi"])).1 (by simp [commandSession])

/-- C8: on the interactive path, when `pty.Start` fails with `err` the session
consists of the `pty.Start` call, one write of a diagnostic to the client
stream and `s.Exit(1)`, so no relay, resize consumer or wait is started; when
`pty.Start` succeeds no goroutine of the session calls `s.Exit`. -/
theorem interactive_pty_failure (cfg : Config) (w : World) (s : Session)
    (hpty : s.isPty = true) (hcmd : s.command = []) :
    (∀ err, w.ptyStart (interactiveCmd cfg w s) = some err →
      sessionEvents cfg w s =
        [Event.ptyStart (interactiveCmd cfg w s),
         Event.writeString ("Error allocating PTY: " ++ err), Event.exit 1] ∧
      (sessionEvents cfg w s).any Event.isRelayOrWait = false ∧
      exitCalls (sessionEvents cfg w s) = [1]) ∧
    (w.ptyStart (interactiveCmd cfg w s) = none →
      exitCalls (sessionEvents cfg w s) = []) := by
  constructor
  · intro err hstart
    rw [sessionEvents_interactive_err cfg w s hpty hcmd err hstart]
    simp [Event.isRelayOrWait, exitCalls]
  · intro hstart
    rw [sessionEvents_interactive_ok cfg w s hpty hcmd hstart]
    rw [exitCalls_append, exitCalls_append, exitCalls_resizeLoop]
    simp [exitCalls]

/-- A failing `pty.Start` ends the session with a message and status 1. -/
theorem interactive_pty_failure_witness :
    sessionEvents defaultConfig (worldFailing "no pty" none)
        (ptySession "xterm" ⟨80, 24⟩ [] []) =
      [Event.ptyStart { name := "/bin/sh", args := [],
                        Env := some ["HOME=/root", "TERM=dumb", "TERM=xterm"],
                        Stdin := none, Stdout := none, Stderr := none },
       Event.writeString "Error allocating PTY: no pty", Event.exit 1] :=
  ((interactive_pty_failure defaultConfig (worldFailing "no pty" none)
    (ptySession "xterm" ⟨80, 24⟩ [] []) rfl rfl).1 "no pty" rfl).1

/-- The entry `TERM=term` appended last is the one the child sees. -/
theorem lookupEnv_term (environ : List String) (term : String) :
    lookupEnv (environ ++ ["TERM=" ++ term]) "TERM" = some term := by
  have hdata : ("TERM=" ++ term).data = 'T' :: 'E' :: 'R' :: 'M' :: '=' :: term.data := by
    rw [String.data_append]; rfl
  have hkey : "TERM".data ++ ['='] = ['T', 'E', 'R', 'M', '='] := rfl
  have hlen : "TERM".length = 4 := rfl
  unfold lookupEnv
  rw [List.reverse_append, hkey, hlen]
  simp [List.find?, hdata, List.isPrefixOf]

/-- The `pty.Setsize` calls of an interactive session whose `pty.Start`
succeeds: one per window of the resize channel, reduced to 16 bits. -/
theorem resize_calls_of_session (cfg : Config) (w : World) (s : Session)
    (hpty : s.isPty = true) (hcmd : s.command = [])
    (hstart : w.ptyStart (interactiveCmd cfg w s) = none) :
    setsizeCalls (sessionEvents cfg w s) =
      s.winCh.map (fun win => { Rows := (win.Height % 65536).toNat,
                                Cols := (win.Width % 65536).toNat, X := 0, Y := 0 }) := by
  rw [sessionEvents_interactive_ok cfg w s hpty hcmd hstart]
  rw [setsizeCalls_append, setsizeCalls_append, setsizeCalls_resizeLoop]
  simp [setsizeCalls]

/-- C9, as stated, fails for a window taller than 65535 rows: after the events
(24, 80) and (65586, 120) the size set on the pseudo-terminal is (50, 120),
not the last event. -/
theorem resize_last_event_truncated :
    setsizeCalls (sessionEvents defaultConfig (worldExiting 0)
        (ptySession "xterm" ⟨80, 24⟩ [⟨120, 65586⟩] [])) =
      [⟨24, 80, 0, 0⟩, ⟨50, 120, 0, 0⟩] ∧
    (finalWinsize (sessionEvents defaultConfig (worldExiting 0)
        (ptySession "xterm" ⟨80, 24⟩ [⟨120, 65586⟩] []))).map
          (fun ws => ((ws.Rows : Int), (ws.Cols : Int))) ≠ some (65586, 120) := by
  decide

/-- C9, amended: on the interactive path with a started pseudo-terminal, the
session makes one `pty.Setsize` call per resize event, in the order received,
with Rows = height mod 65536 and Cols = width mod 65536; after a non-empty
sequence the size set is that of the last event reduced mod 65536, which is
the last event itself when its height and width lie in 0..65535. -/
theorem resize_applied_in_order (cfg : Config) (w : World) (s : Session)
    (hpty : s.isPty = true) (hcmd : s.command = [])
    (hstart : w.ptyStart (interactiveCmd cfg w s) = none) :
    setsizeCalls (sessionEvents cfg w s) =
      s.winCh.map (fun win => { Rows := (win.Height % 65536).toNat,
                                Cols := (win.Width % 65536).toNat, X := 0, Y := 0 }) ∧
    (∀ last, s.winCh.getLast? = some last →
      finalWinsize (sessionEvents cfg w s) =
        some { Rows := (last.Height % 65536).toNat,
               Cols := (last.Width % 65536).toNat, X := 0, Y := 0 }) ∧
    (∀ last, s.winCh.getLast? = some last →
      0 ≤ last.Height → last.Height < 65536 → 0 ≤ last.Width → last.Width < 65536 →
      (finalWinsize (sessionEvents cfg w s)).map
        (fun ws => ((ws.Rows : Int), (ws.Cols : Int))) = some (last.Height, last.Width)) := by
  have hcalls := resize_calls_of_session cfg w s hpty hcmd hstart
  have hfinal : ∀ last, s.winCh.getLast? = some last →
      finalWinsize (sessionEvents cfg w s) =
        some { Rows := (last.Height % 65536).toNat,
               Cols := (last.Width % 65536).toNat, X := 0, Y := 0 } := by
    intro last hlast
    rw [finalWinsize_eq_getLast, hcalls, List.getLast?_map, hlast]
    rfl
  refine ⟨hcalls, hfinal, ?_⟩
  intro last hlast h0 h1 h2 h3
  rw [hfinal last hlast]
  simp only [Option.map_some', Option.some.injEq, Prod.mk.injEq]
  constructor
  · rw [Int.emod_eq_of_lt h0 h1]; exact Int.toNat_of_nonneg h0
  · rw [Int.emod_eq_of_lt h2 h3]; exact Int.toNat_of_nonneg h2

/-- The events (24, 80) then (50, 120) leave the size (50, 120). -/
theorem resize_applied_in_order_witness :
    (finalWinsize (sessionEvents defaultConfig (worldExiting 0)
        (ptySession "xterm" ⟨80, 24⟩ [⟨120, 50⟩] []))).map
          (fun ws => ((ws.Rows : Int), (ws.Cols : Int))) = some (50, 120) :=
  (resize_applied_in_order defaultConfig (worldExiting 0)
    (ptySession "xterm" ⟨80, 24⟩ [⟨120, 50⟩] []) rfl rfl rfl).2.2 ⟨120, 50⟩ rfl
    (by decide) (by decide) (by decide) (by decide)

/-- C10, as stated, fails for a request of 65560 rows and 80 columns: the first
size set on the pseudo-terminal is (24, 80), not the size of the request. -/
theorem interactive_initial_size_truncated :
    (ptySession "xterm" ⟨80, 65560⟩ [] []).ptyReq.Window = ⟨80, 65560⟩ ∧
    (setsizeCalls (sessionEvents defaultConfig (worldExiting 0)
        (ptySession "xterm" ⟨80, 65560⟩ [] []))).head? = some ⟨24, 80, 0, 0⟩ ∧
    ((setsizeCalls (sessionEvents defaultConfig (worldExiting 0)
        (ptySession "xterm" ⟨80, 65560⟩ [] []))).head?).map
          (fun ws => ((ws.Rows : Int), (ws.Cols : Int))) ≠ some (65560, 80) := by
  decide

/-- C10, amended: on the interactive path the handler starts, through
`pty.Start`, the configured shell with no arguments and with the environment
of the server followed by `TERM=` and the terminal type of the request, so the
child sees that type as `TERM`; this is the only process the session starts
when `pty.Start` succeeds; and when the resize channel delivers the window of
the request first, the first size set on the pseudo-terminal is that window
with rows and columns reduced mod 65536, the window itself when both lie in
0..65535. -/
theorem interactive_spawn_setup (cfg : Config) (w : World) (s : Session)
    (hpty : s.isPty = true) (hcmd : s.command = []) :
    (handler cfg w s).head? =
      some (Event.ptyStart { name := cfg.shell, args := [],
                             Env := some (w.environ ++ ["TERM=" ++ s.ptyReq.Term]),
                             Stdin := none, Stdout := none, Stderr := none }) ∧
    lookupEnv (w.environ ++ ["TERM=" ++ s.ptyReq.Term]) "TERM" = some s.ptyReq.Term ∧
    (w.ptyStart (interactiveCmd cfg w s) = none →
      (sessionEvents cfg w s).filter Event.isSpawn =
        [Event.ptyStart (interactiveCmd cfg w s)]) ∧
    (w.ptyStart (interactiveCmd cfg w s) = none →
      ∀ later, s.winCh = s.ptyReq.Window :: later →
        (setsizeCalls (sessionEvents cfg w s)).head? =
          some { Rows := (s.ptyReq.Window.Height % 65536).toNat,
                 Cols := (s.ptyReq.Window.Width % 65536).toNat, X := 0, Y := 0 }) ∧
    (w.ptyStart (interactiveCmd cfg w s) = none →
      ∀ later, s.winCh = s.ptyReq.Window :: later →
        0 ≤ s.ptyReq.Window.Height → s.ptyReq.Window.Height < 65536 →
        0 ≤ s.ptyReq.Window.Width → s.ptyReq.Window.Width < 65536 →
        ((setsizeCalls (sessionEvents cfg w s)).head?).map
          (fun ws => ((ws.Rows : Int), (ws.Cols : Int))) =
            some (s.ptyReq.Window.Height, s.ptyReq.Window.Width)) := by
  have hfirst : w.ptyStart (interactiveCmd cfg w s) = none →
      ∀ later, s.winCh = s.ptyReq.Window :: later →
        (setsizeCalls (sessionEvents cfg w s)).head? =
          some { Rows := (s.ptyReq.Window.Height % 65536).toNat,
                 Cols := (s.ptyReq.Window.Width % 65536).toNat, X := 0, Y := 0 } := by
    intro hstart later hch
    rw [(resize_calls_of_session cfg w s hpty hcmd hstart), hch]
    rfl
  refine ⟨?_, lookupEnv_term w.environ s.ptyReq.Term, ?_, hfirst, ?_⟩
  · have hrec : interactiveCmd cfg w s =
        { name := cfg.shell, args := [],
          Env := some (w.environ ++ ["TERM=" ++ s.ptyReq.Term]),
          Stdin := none, Stdout := none, Stderr := none } := rfl
    rw [← hrec]
    cases hstart : w.ptyStart (interactiveCmd cfg w s) <;>
      simp [handler, hpty, hcmd, hstart]
  · intro hstart
    rw [sessionEvents_interactive_ok cfg w s hpty hcmd hstart]
    simp [List.filter_append, filter_isSpawn_resizeLoop, Event.isSpawn]
  · intro hstart later hch h0 h1 h2 h3
    rw [hfirst hstart later hch]
    simp only [Option.map_some', Option.some.injEq, Prod.mk.injEq]
    constructor
    · rw [Int.emod_eq_of_lt h0 h1]; exact Int.toNat_of_nonneg h0
    · rw [Int.emod_eq_of_lt h2 h3]; exact Int.toNat_of_nonneg h2

/-- A request for an `xterm` of 24 rows and 80 columns starts `/bin/sh` with
`TERM=xterm` last in its environment and sets the size (24, 80) first. -/
theorem interactive_spawn_setup_witness :
    (handler defaultConfig (worldExiting 0) (ptySession "xterm" ⟨80, 24⟩ [] [])).head? =
      some (Event.ptyStart { name := "/bin/sh", args := [],
                             Env := some ["TERM=xterm"],
                             Stdin := none, Stdout := none, Stderr := none }) ∧
    ((setsizeCalls (sessionEvents defaultConfig (worldExiting 0)
        (ptySession "xterm" ⟨80, 24⟩ [] []))).head?).map
          (fun ws => ((ws.Rows : Int), (ws.Cols : Int))) = some (24, 80) :=
  ⟨(interactive_spawn_setup defaultConfig (worldExiting 0)
      (ptySession "xterm" ⟨80, 24⟩ [] []) rfl rfl).1,
   (interactive_spawn_setup defaultConfig (worldExiting 0)
      (ptySession "xterm" ⟨80, 24⟩ [] []) rfl rfl).2.2.2.2 rfl [] rfl
      (by decide) (by decide) (by decide) (by decide)⟩

end SingleUserSshd
